import Mathlib

/-!
Shallow embedding of src/src/state_machine.hpp: the per-slot mountpoint
state machine of the virtual-media daemon.

States, events and their transition handlers follow the C++ std::visit
dispatch of MountPointStateMachine.  External helpers whose sources are not
part of the state machine (subprocess spawn, CIFS mount helper, gadget
configfs) are modelled by an environment of boolean outcomes, and their
invocations are recorded in an effect trace so that resource properties
(scratch directory existence, Redfish event emission, buffer zeroization)
can be stated.
-/

namespace VirtualMedia

/-- Subset of std::errc used by state_machine.hpp. -/
inductive Errc
  | invalid_argument
  | io_error
  | device_or_resource_busy
  | operation_canceled
  | operation_not_supported
  deriving DecidableEq, Repr

/-- MountPointStateMachine::Error: an errno-style code plus a message. -/
structure Error where
  code : Errc
  message : String
  deriving DecidableEq, Repr

/-- Contents of a utils::CredentialsProvider (user plus secret). -/
structure Credentials where
  user : String
  pass : String
  deriving DecidableEq, Repr

/-- MountPointStateMachine::Target: image URL, read-write flag, optional CIFS
scratch mount directory, optional credentials. -/
structure Target where
  imgUrl : String
  rw : Bool
  mountDir : Option String := none
  credentials : Option Credentials := none
  deriving DecidableEq, Repr

/-- The State variant of MountPointStateMachine.  ReadyState optionally
carries an Error from the previous cycle. -/
inductive SlotState
  | Initial
  | Ready (error : Option Error)
  | Activating
  | WaitingForGadget
  | Active
  | WaitingForProcessEnd
  deriving DecidableEq, Repr

/-- Configuration::Mode. -/
inductive Mode
  | proxy
  | legacy
  deriving DecidableEq, Repr

/-- The mutable per-slot data of MountPointStateMachine that the claims
range over: mode and name from the configuration, the optional mount
target, the current state and the last subprocess exit code. -/
structure Machine where
  mode : Mode
  name : String
  target : Option Target
  state : SlotState
  exitCode : Int
  deriving DecidableEq, Repr

/-- Redfish message types sent through sendEvent. -/
inductive RedfishMessage
  | resourceCreated
  | resourceDeleted
  deriving DecidableEq, Repr

/-- Externally visible actions performed by transition handlers, in program
order. -/
inductive Effect
  | exportInterfaces
  | createMountDir (dir : String)
  | smbMount (dir : String) (rw : Bool)
  | smbUnmount (dir : String)
  | removeAll (dir : String)
  | spawnProcess
  | stopProcess
  | configureGadget (inserted : Bool)
  | sendRedfishEvent (msg : RedfishMessage)
  | secureCleanupBuf
  | logCritical
  deriving DecidableEq, Repr

/-- Outcomes of the external helper calls made during transitions. -/
structure Env where
  createMountDirOk : Bool
  smbMountOk : Bool
  spawnOk : Bool
  configureGadgetOk : Bool
  removeGadgetOk : Bool
  deriving DecidableEq, Repr

/-- Modelled from the spec: SmbShare::createMountDir lives in smb.hpp, which
is not under src.  Per the spec (CIFS share helper) it returns a unique
scratch mount path derived from the slot name; the concrete shape of the
path is immaterial to the claims, only its per-slot determinism is used. -/
def scratchDir (slotName : String) : String :=
  "/tmp/virtual-media/" ++ slotName

/-- ActivationStartedEvent::checkUrl: compares the scheme against the first
scheme-length characters of the URL (substr clamps on shorter strings). -/
def checkUrl (urlScheme imageUrl : String) : Bool :=
  imageUrl.toList.take urlScheme.toList.length == urlScheme.toList

/-- ActivationStartedEvent::isCifsUrl. -/
def isCifsUrl (imageUrl : String) : Bool :=
  checkUrl "smb://" imageUrl

/-- ActivationStartedEvent::isHttpsUrl. -/
def isHttpsUrl (imageUrl : String) : Bool :=
  checkUrl "https://" imageUrl

/-- Modelled from the spec: the numeric values of the StateChange enum live
in system.hpp, which is not under src.  The source builds this message as
the C string literal offset by static_cast int of devState (pointer
arithmetic, not formatting); with the enum value unavailable the unshifted
literal is kept.  No claim depends on this text. -/
def udevUnexpectedMessage : String := "Unexpected udev event: "

/-- ActivationStartedEvent::mountSmbShare.  The SmbShare helper itself is in
smb.hpp, outside src; per the spec its mount call mounts the remote share
and its unmount call only unmounts, while removal of the directory is the
state machine's responsibility.  Success or failure of the helper calls is
drawn from the environment.  Branches in source order: createMountDir
failure, smb.mount failure (remove_all of the directory), spawnNbdKit
failure (unmount of the directory, no removal), success (record the scratch
directory in the target). -/
def mountSmbShare (m : Machine) (t : Target) (env : Env) : Machine × List Effect :=
  if !env.createMountDirOk then
    ({m with state := .Ready (some ⟨.io_error, "Failed to create mount directory"⟩)}, [])
  else
    let dir := scratchDir m.name
    if !env.smbMountOk then
      ({m with state := .Ready (some ⟨.invalid_argument, "Failed to mount CIFS share"⟩)},
       [.createMountDir dir, .removeAll dir])
    else if !env.spawnOk then
      ({m with state := .Ready (some ⟨.operation_canceled, "Unable to setup NbdKit"⟩)},
       [.createMountDir dir, .smbMount dir t.rw, .smbUnmount dir])
    else
      ({m with state := .WaitingForGadget, target := some {t with mountDir := some dir}},
       [.createMountDir dir, .smbMount dir t.rw, .spawnProcess])

/-- ActivationStartedEvent::mountHttpsShare: spawnNbdKit with the curl
backend; failure yields Ready with invalid_argument. -/
def mountHttpsShare (m : Machine) (env : Env) : Machine × List Effect :=
  if !env.spawnOk then
    ({m with state := .Ready (some ⟨.invalid_argument, "Failed to mount HTTPS share"⟩)}, [])
  else
    ({m with state := .WaitingForGadget}, [.spawnProcess])

/-- ActivationStartedEvent::activateProxyMode: spawn the NBD client; failure
yields Ready with operation_canceled. -/
def activateProxyMode (m : Machine) (env : Env) : Machine × List Effect :=
  if !env.spawnOk then
    ({m with state := .Ready (some ⟨.operation_canceled, "Failed to spawn process"⟩)}, [])
  else
    ({m with state := .WaitingForGadget}, [.spawnProcess])

/-- ActivationStartedEvent::activateLegacyMode: dispatch on the URL scheme
of the target.  The source dereferences machine.target unconditionally; an
absent target is an empty-optional dereference that is unreachable from the
IPC flow (the Mount method stores the target first) and is modelled as a
no-op. -/
def activateLegacyMode (m : Machine) (env : Env) : Machine × List Effect :=
  match m.target with
  | some t =>
    if isCifsUrl t.imgUrl then
      mountSmbShare m t env
    else if isHttpsUrl t.imgUrl then
      mountHttpsShare m env
    else
      ({m with state := .Ready (some ⟨.invalid_argument, "URL not recognized"⟩)}, [])
  | none => (m, [])

/-- ActivationStartedEvent dispatch: legal only in Activating (where it is
posted from ActivatingState::onEnter); elsewhere the BasicEvent default
logs critical and keeps the state. -/
def applyActivationStarted (m : Machine) (env : Env) : Machine × List Effect :=
  match m.state with
  | .Activating =>
    match m.mode with
    | .proxy => activateProxyMode m env
    | .legacy => activateLegacyMode m env
  | _ => (m, [.logCritical])

/-- UdevStateChangeEvent dispatch.  In WaitingForGadget an inserted device
is configured as a gadget (success sends RESOURCE_CREATED and moves to
Active, failure moves to Ready busy); a removed device moves to Ready with
operation_not_supported.  In Ready the event is ignored.  Elsewhere the
handler logs critical and keeps the state. -/
def applyUdevStateChange (inserted : Bool) (m : Machine) (env : Env) :
    Machine × List Effect :=
  match m.state with
  | .WaitingForGadget =>
    if inserted then
      if env.configureGadgetOk then
        ({m with state := .Active},
         [.configureGadget true, .sendRedfishEvent .resourceCreated])
      else
        ({m with state := .Ready (some ⟨.device_or_resource_busy, "Unable to configure gadget"⟩)},
         [.configureGadget true])
    else
      ({m with state := .Ready (some ⟨.operation_not_supported, udevUnexpectedMessage⟩)}, [])
  | .Ready _ => (m, [])
  | _ => (m, [.logCritical])

/-- MountEvent dispatch: legal only in Ready, elsewhere it throws
InvalidStateError (modelled as the error message of the exception). -/
def applyMount (m : Machine) : Except String (Machine × List Effect) :=
  match m.state with
  | .Ready _ => .ok ({m with state := .Activating}, [])
  | _ => .error "Could not mount on not empty slot"

/-- UnmountEvent dispatch.  Activating returns to Ready; WaitingForGadget
stops the subprocess and waits for its end; Active removes the gadget
(failure yields Ready busy, success stops the subprocess, sends
RESOURCE_DELETED and waits for process end); Ready and WaitingForProcessEnd
throw InvalidStateError; Initial hits the BasicEvent default. -/
def applyUnmount (m : Machine) (env : Env) : Except String (Machine × List Effect) :=
  match m.state with
  | .Activating => .ok ({m with state := .Ready none}, [])
  | .WaitingForGadget => .ok ({m with state := .WaitingForProcessEnd}, [.stopProcess])
  | .Active =>
    if !env.removeGadgetOk then
      .ok ({m with state := .Ready (some ⟨.device_or_resource_busy, "Unable to unmount gadget"⟩)},
           [.configureGadget false, .logCritical])
    else
      .ok ({m with state := .WaitingForProcessEnd},
           [.configureGadget false, .stopProcess, .sendRedfishEvent .resourceDeleted])
  | .WaitingForProcessEnd => .error "Could not unmount on empty slot"
  | .Ready _ => .error "Could not unmount on empty slot"
  | .Initial => .ok (m, [.logCritical])

/-- SubprocessStoppedEvent dispatch.  Activating returns to Ready;
WaitingForGadget stops the process and reports io_error with the literal
message of the source; Active removes the gadget (failure yields Ready
busy); WaitingForProcessEnd returns to Ready; Initial and Ready hit the
BasicEvent default. -/
def applySubprocessStopped (m : Machine) (env : Env) : Machine × List Effect :=
  match m.state with
  | .Activating => ({m with state := .Ready none}, [])
  | .WaitingForGadget =>
    ({m with state := .Ready (some ⟨.io_error, "Process ended prematurely"⟩)}, [.stopProcess])
  | .Active =>
    if !env.removeGadgetOk then
      ({m with state := .Ready (some ⟨.device_or_resource_busy, "Unable to unmount gadget"⟩)},
       [.configureGadget false, .logCritical])
    else
      ({m with state := .Ready none}, [.configureGadget false])
  | .WaitingForProcessEnd => ({m with state := .Ready none}, [])
  | _ => (m, [.logCritical])

/-- RegisterDbusEvent dispatch: in Initial it exports the three IPC
interfaces and moves to Ready; elsewhere it logs critical and forces the
state back to Initial. -/
def applyRegister (m : Machine) : Machine × List Effect :=
  match m.state with
  | .Initial => ({m with state := .Ready none}, [.exportInterfaces])
  | _ => ({m with state := .Initial}, [.logCritical])

/-- The events applied through MountPointStateMachine::emitEvent. -/
inductive Event
  | register
  | mount
  | unmount
  | subprocessStopped
  | activationStarted
  | udevStateChange (inserted : Bool)
  deriving DecidableEq, Repr

/-- The std::visit of an event over the current state, before onEnter.
Throwing InvalidStateError is modelled as the error constructor; in that
case the state assignment in emitEvent never executes. -/
def applyRaw (e : Event) (m : Machine) (env : Env) : Except String (Machine × List Effect) :=
  match e with
  | .register => .ok (applyRegister m)
  | .mount => applyMount m
  | .unmount => applyUnmount m env
  | .subprocessStopped => .ok (applySubprocessStopped m env)
  | .activationStarted => .ok (applyActivationStarted m env)
  | .udevStateChange d => .ok (applyUdevStateChange d m env)

/-- ReadyState::onEnter: when a target is present, unmount its CIFS scratch
directory if one was recorded, then destroy the target.  The directory is
not removed here. -/
def readyOnEnter (m : Machine) : Machine × List Effect :=
  match m.target with
  | none => (m, [])
  | some t =>
    ({m with target := none},
     match t.mountDir with
     | some d => [Effect.smbUnmount d]
     | none => [])

/-- MountPointStateMachine::emitEvent: apply the event, then run the onEnter
hook of the resulting state.  ActivatingState::onEnter resets the exit code
and synchronously emits ActivationStarted (whose own result may enter Ready
and run ReadyState::onEnter); ReadyState::onEnter cleans up the target;
other states have no onEnter action. -/
def emitEvent (e : Event) (m : Machine) (env : Env) : Except String (Machine × List Effect) :=
  match applyRaw e m env with
  | .error msg => .error msg
  | .ok (m1, eff1) =>
    match m1.state with
    | .Ready _ =>
      let r := readyOnEnter m1
      .ok (r.1, eff1 ++ r.2)
    | .Activating =>
      let r2 := applyActivationStarted {m1 with exitCode := -1} env
      match r2.1.state with
      | .Ready _ =>
        let r3 := readyOnEnter r2.1
        .ok (r3.1, eff1 ++ r2.2 ++ r3.2)
      | _ => .ok (r2.1, eff1 ++ r2.2)
    | _ => .ok (m1, eff1)

/-- The WriteProtected property getter of addMountPointInterface.  The
source returns the negation of machine.target rw with no check of the
state and no check that the target is present; dereferencing the absent
optional target is undefined behaviour, modelled as none. -/
def writeProtected (m : Machine) : Option Bool :=
  m.target.map fun t => !t.rw

/-- The WriteProtected value as the spec words it: true unless the target
is read-write and the state is Active.  Stated only to be compared against
the getter taken from the source. -/
def writeProtectedSpec (m : Machine) : Bool :=
  !((match m.target with | some t => t.rw | none => false) && (m.state == .Active))

/-- One poll of the handleMount waiting loop: the terminal observation, if
any.  Ready with an error raises the error as an IPC exception, Ready
without an error returns false, Active returns true; other states keep
polling. -/
def mountPollStep (s : SlotState) : Option (Except Error Bool) :=
  match s with
  | .Ready (some e) => some (.error e)
  | .Ready none => some (.ok false)
  | .Active => some (.ok true)
  | _ => none

/-- The waiting loop of handleMount: the first argument of the recursion is
the remaining poll budget (waitCnt in the source), the second the index of
the current observation; f i is the slot state seen by poll i, the polls
being 100 ms apart.  Budget exhaustion returns false. -/
def mountPollLoop (f : Nat → SlotState) : Nat → Nat → Except Error Bool
  | 0, _ => .ok false
  | n + 1, i =>
    match mountPollStep (f i) with
    | some r => r
    | none => mountPollLoop f n (i + 1)

/-- waitCnt initial value in handleMount. -/
def mountWaitPolls : Nat := 120

/-- Milliseconds between polls in handleMount. -/
def mountPollIntervalMs : Nat := 100

/-- The complete waiting phase of handleMount over the observed states. -/
def handleMountWait (f : Nat → SlotState) : Except Error Bool :=
  mountPollLoop f mountWaitPolls 0

/-- Errno carried by a thrown sdbusplus SdBusError. -/
inductive IpcErrno
  | eperm
  | einval
  | fromErrc (c : Errc)
  deriving DecidableEq, Repr

/-- An SdBusError thrown across the IPC boundary. -/
structure IpcError where
  errno : IpcErrno
  message : String
  deriving DecidableEq, Repr

/-- Result of one IPC method call: the returned value or thrown error, the
machine as of the end of the synchronous part of the call, and the effect
trace. -/
structure CallResult where
  outcome : Except IpcError Bool
  machine : Machine
  effects : List Effect
  deriving Repr

/-- NUL character, the credential delimiter of the legacy Mount pipe. -/
def nulChar : Char := Char.ofNat 0

/-- std::count of NUL over the read part of the pipe buffer. -/
def countNulls (bytes : List Char) : Nat :=
  bytes.count nulChar

/-- Credential parsing in the legacy Mount lambda: user is the run of the
read buffer up to the first NUL, pass the following run up to the second
NUL (the two-NUL check has already ensured both terminators are inside the
read area). -/
def parseCreds (bytes : List Char) : Credentials :=
  let user := bytes.takeWhile fun c => c != nulChar
  let pass := (bytes.drop (user.length + 1)).takeWhile fun c => c != nulChar
  ⟨String.mk user, String.mk pass⟩

/-- The credentials reset performed by the legacy Mount lambda after
handleMount returns or throws.  The source dereferences machine.target
unconditionally; an absent target (cleared by a transition to Ready) is an
empty-optional dereference, modelled as a no-op. -/
def resetCredentials (m : Machine) : Machine :=
  {m with target := m.target.map fun t => {t with credentials := none}}

/-- The shared tail of the legacy Mount method: emit the mount event (an
InvalidStateError becomes an EPERM SdBusError), then wait by polling; the
error carried by Ready is rethrown with its code and message; credentials
are reset on both return and throw.  The machine field reflects the
synchronous event emission; asynchronous progress during the wait is
observed only through f. -/
def legacyMountBody (m : Machine) (env : Env) (f : Nat → SlotState)
    (eff0 : List Effect) : CallResult :=
  match emitEvent .mount m env with
  | .error msg => ⟨.error ⟨.eperm, msg⟩, resetCredentials m, eff0⟩
  | .ok (m1, eff1) =>
    match handleMountWait f with
    | .error er => ⟨.error ⟨.fromErrc er.code, er.message⟩, resetCredentials m1, eff0 ++ eff1⟩
    | .ok b => ⟨.ok b, resetCredentials m1, eff0 ++ eff1⟩

/-- The legacy Mount IPC method.  It stores the target into the machine
before anything else; when a pipe is supplied it reads the credential
bytes, rejects any NUL count other than two with an EINVAL SdBusError
carrying the message of the source (note that the raw buffer cleanup
utils::secureCleanup runs only after a successful parse, so the rejection
path records no secureCleanupBuf effect), wraps the parsed credentials into
the target, then runs the shared mount body. -/
def legacyMount (m : Machine) (env : Env) (f : Nat → SlotState) (imgUrl : String)
    (rw : Bool) (pipe : Option (List Char)) : CallResult :=
  let m1 : Machine := {m with target := some {imgUrl := imgUrl, rw := rw}}
  match pipe with
  | none => legacyMountBody m1 env f []
  | some bytes =>
    if countNulls bytes ≠ 2 then
      ⟨.error ⟨.einval, "Malformed extra data"⟩, m1, []⟩
    else
      let m2 : Machine :=
        {m1 with target := some {imgUrl := imgUrl, rw := rw,
                                 credentials := some (parseCreds bytes)}}
      legacyMountBody m2 env f [Effect.secureCleanupBuf]

/-- Abstract filesystem view of the scratch directory of one slot. -/
structure FsState where
  dirExists : Bool
  dirMounted : Bool
  deriving DecidableEq, Repr

/-- Interpretation of one effect on the scratch directory view. -/
def applyEffectFs (fs : FsState) : Effect → FsState
  | .createMountDir _ => {fs with dirExists := true}
  | .removeAll _ => {fs with dirExists := false}
  | .smbMount _ _ => {fs with dirMounted := true}
  | .smbUnmount _ => {fs with dirMounted := false}
  | _ => fs

/-- Interpretation of an effect trace on the scratch directory view. -/
def runEffects (fs : FsState) (l : List Effect) : FsState :=
  l.foldl applyEffectFs fs

end VirtualMedia

namespace VirtualMedia

/-! Shared concrete fixtures used by several claims. -/

/-- A freshly registered legacy slot: Ready, no error, no target. -/
def readyLegacySlot : Machine := ⟨.legacy, "Slot_0", none, .Ready none, -1⟩

/-- An environment where every external helper succeeds. -/
def envAllOk : Env := ⟨true, true, true, true, true⟩

/-- An environment where NbdKit setup fails after a successful CIFS mount. -/
def envNbdKitFail : Env := ⟨true, true, false, true, true⟩

/-- An environment where mounting the remote CIFS share fails. -/
def envCifsMountFail : Env := ⟨true, false, true, true, true⟩

/-- Pipe payload with a single NUL delimiter (boundary scenario 7 of the
spec). -/
def oneNullPipe : List Char := "alice\x00".toList

/-- Well-formed pipe payload with exactly two NUL delimiters. -/
def goodPipe : List Char := "alice\x00s3cret\x00".toList

/-- The legacy Mount call with the single-NUL pipe payload on a fresh
slot. -/
def malformedPipeCall : CallResult :=
  legacyMount readyLegacySlot envAllOk (fun _ => .Ready none)
    "smb://host/share/f.iso" false (some oneNullPipe)

/-- The legacy Mount call that mounts CIFS successfully and then fails to
set up NbdKit. -/
def cifsSpawnFailCall : CallResult :=
  legacyMount readyLegacySlot envNbdKitFail (fun _ => .Ready none)
    "smb://host/share/f.iso" false (some goodPipe)

/-- A proxy slot waiting for the gadget device. -/
def waitingGadgetSlot : Machine := ⟨.proxy, "Slot_0", none, .WaitingForGadget, -1⟩

/-- A legacy slot in Activating with a read-write target. -/
def activatingRwSlot : Machine :=
  ⟨.legacy, "Slot_0", some ⟨"https://host/img.iso", true, none, none⟩, .Activating, -1⟩

/-- A legacy slot in Ready whose target was stored by the legacy Mount
method before the mount event is emitted. -/
def readyWithCifsTarget : Machine :=
  ⟨.legacy, "Slot_0", some ⟨"smb://host/share/f.iso", false, none, none⟩, .Ready none, -1⟩

/-! Structural helper lemmas. -/

theorem readyOnEnter_fst_target (m : Machine) : (readyOnEnter m).1.target = none := by
  unfold readyOnEnter
  cases h : m.target with
  | none => simpa using h
  | some t => simp

theorem readyOnEnter_fst_state (m : Machine) : (readyOnEnter m).1.state = m.state := by
  unfold readyOnEnter
  cases h : m.target with
  | none => simp
  | some t => simp

theorem readyOnEnter_snd_of_mountDir (m : Machine) (t : Target) (d : String)
    (ht : m.target = some t) (hd : t.mountDir = some d) :
    (readyOnEnter m).2 = [Effect.smbUnmount d] := by
  unfold readyOnEnter
  simp [ht, hd]

end VirtualMedia

namespace VirtualMedia

/-- C1 counterexample: calling the legacy Mount IPC method on a slot in
Ready with a pipe payload holding a single NUL throws the malformed-data
error while the slot is still in Ready, yet the mount target stored at the
top of the method remains set: the target is set while the state is Ready,
against the target-iff-active-lifecycle invariant. -/
theorem legacy_mount_leaves_target_in_ready_cex :
    malformedPipeCall.outcome = .error ⟨.einval, "Malformed extra data"⟩ ∧
    malformedPipeCall.machine.state = .Ready none ∧
    malformedPipeCall.machine.target =
      some ⟨"smb://host/share/f.iso", false, none, none⟩ := by
  exact ⟨rfl, rfl, rfl⟩

/-- C2 (code bug): a pipe payload with one NUL is indeed rejected with the
invalid-argument IPC error "Malformed extra data", but the call records no
raw-buffer cleanup: the throw happens before utils::secureCleanup runs, so
the rejection path leaves the read buffer unzeroized. -/
theorem malformed_pipe_rejected_without_cleanup :
    malformedPipeCall.outcome = .error ⟨.einval, "Malformed extra data"⟩ ∧
    Effect.secureCleanupBuf ∉ malformedPipeCall.effects := by
  exact ⟨rfl, by decide⟩

/-- C10 (code bug): reading the WriteProtected property while the slot is
in Ready with no target dereferences the absent optional target; the getter
has no defined value there (modelled as none). -/
theorem write_protected_empty_target_undefined :
    readyLegacySlot.target = none ∧
    readyLegacySlot.state = .Ready none ∧
    writeProtected readyLegacySlot = none := by
  exact ⟨rfl, rfl, rfl⟩

/-- C5 counterexample: with a read-write target and the slot in Activating,
the WriteProtected getter returns false although the state is not Active,
while the claim predicts true in every state other than Active. -/
theorem write_protected_ignores_state_cex :
    writeProtected activatingRwSlot = some false ∧
    writeProtectedSpec activatingRwSlot = true ∧
    activatingRwSlot.state ≠ .Active := by
  refine ⟨rfl, rfl, ?_⟩
  intro hcontr
  simp [activatingRwSlot] at hcontr

/-- C5 amended: the WriteProtected getter ignores the slot state entirely;
whenever a target is present it returns the negation of the target's
read-write flag (and it has no defined value when no target is present). -/
theorem write_protected_returns_not_rw (m : Machine) (t : Target)
    (h : m.target = some t) : writeProtected m = some (!t.rw) := by
  simp [writeProtected, h]

/-- Witness for the amended C5 theorem at the Activating read-write slot. -/
theorem write_protected_returns_not_rw_witness :
    writeProtected activatingRwSlot = some (!true) :=
  write_protected_returns_not_rw activatingRwSlot
    ⟨"https://host/img.iso", true, none, none⟩ rfl

end VirtualMedia

namespace VirtualMedia

/-- C7: applying SubprocessStopped while the slot is in WaitingForGadget
transitions it to Ready carrying the error (io_error, "Process ended
prematurely"). -/
theorem subprocess_stopped_in_waiting_for_gadget (m : Machine) (env : Env)
    (m1 : Machine) (eff : List Effect)
    (hs : m.state = .WaitingForGadget)
    (h : emitEvent .subprocessStopped m env = .ok (m1, eff)) :
    m1.state = .Ready (some ⟨.io_error, "Process ended prematurely"⟩) := by
  have h2 : applySubprocessStopped m env =
      ({m with state := .Ready (some ⟨.io_error, "Process ended prematurely"⟩)},
       [.stopProcess]) := by
    unfold applySubprocessStopped
    rw [hs]
  simp only [emitEvent, applyRaw, h2] at h
  simp only [Except.ok.injEq, Prod.mk.injEq] at h
  obtain ⟨h1, -⟩ := h
  rw [← h1, readyOnEnter_fst_state]

/-- Witness for the C7 theorem at a concrete proxy slot waiting for the
gadget. -/
theorem subprocess_stopped_in_waiting_for_gadget_witness :
    (⟨.proxy, "Slot_0", none,
      .Ready (some ⟨.io_error, "Process ended prematurely"⟩), -1⟩ : Machine).state =
      .Ready (some ⟨.io_error, "Process ended prematurely"⟩) :=
  subprocess_stopped_in_waiting_for_gadget waitingGadgetSlot envAllOk
    ⟨.proxy, "Slot_0", none, .Ready (some ⟨.io_error, "Process ended prematurely"⟩), -1⟩
    [.stopProcess] rfl rfl

/-- C8 counterexample: a removed-direction udev event applied in
WaitingForGadget does not leave the state unchanged: it transitions the
slot to Ready carrying an operation_not_supported error. -/
theorem udev_removed_in_waiting_changes_state_cex :
    emitEvent (.udevStateChange false) waitingGadgetSlot envAllOk =
      .ok (⟨.proxy, "Slot_0", none,
            .Ready (some ⟨.operation_not_supported, udevUnexpectedMessage⟩), -1⟩, []) ∧
    SlotState.Ready (some ⟨.operation_not_supported, udevUnexpectedMessage⟩) ≠
      SlotState.WaitingForGadget := by
  exact ⟨rfl, by decide⟩

/-- C4 counterexample: a legacy CIFS mount whose NbdKit setup fails returns
the slot to Ready, and the scratch directory created for the CIFS share is
unmounted but never removed: it still exists while the slot is in Ready. -/
theorem scratch_dir_persists_in_ready_cex :
    cifsSpawnFailCall.machine.state =
      .Ready (some ⟨.operation_canceled, "Unable to setup NbdKit"⟩) ∧
    (runEffects ⟨false, false⟩ cifsSpawnFailCall.effects).dirExists = true ∧
    Effect.removeAll (scratchDir "Slot_0") ∉ cifsSpawnFailCall.effects := by
  exact ⟨rfl, rfl, by decide⟩

/-- C6 counterexample: when mounting the remote CIFS share fails during
legacy activation, the slot transitions to Ready carrying invalid_argument
(message "Failed to mount CIFS share"), not io_error as the claim states.
The scratch directory is removed before the transition. -/
theorem cifs_mount_failure_error_code_cex :
    emitEvent .mount readyWithCifsTarget envCifsMountFail =
      .ok (⟨.legacy, "Slot_0", none,
            .Ready (some ⟨.invalid_argument, "Failed to mount CIFS share"⟩), -1⟩,
           [.createMountDir (scratchDir "Slot_0"), .removeAll (scratchDir "Slot_0")]) ∧
    Errc.invalid_argument ≠ Errc.io_error := by
  exact ⟨rfl, by decide⟩

end VirtualMedia

namespace VirtualMedia

theorem mountPollLoop_skip (f : Nat → SlotState) :
    ∀ (k n i : Nat), (∀ j, j < k → mountPollStep (f (i + j)) = none) →
      mountPollLoop f (n + k) i = mountPollLoop f n (i + k) := by
  intro k
  induction k with
  | zero =>
    intro n i _
    simp
  | succ k ih =>
    intro n i h
    have h0 : mountPollStep (f i) = none := by
      simpa using h 0 (Nat.succ_pos k)
    have hrest : ∀ j, j < k → mountPollStep (f (i + 1 + j)) = none := by
      intro j hj
      have hx := h (j + 1) (by omega)
      have e : i + (j + 1) = i + 1 + j := by omega
      rwa [e] at hx
    have step1 : mountPollLoop f (n + (k + 1)) i = mountPollLoop f (n + k) (i + 1) := by
      have e : n + (k + 1) = (n + k) + 1 := by omega
      rw [e]
      simp [mountPollLoop, h0]
    rw [step1, ih n (i + 1) hrest]
    congr 1
    omega

/-- C3: after emitting the mount event, the Mount method polls the observed
slot state (100 ms apart) with a budget of 120 polls: it returns true when
the state reaches Active, returns false when the state returns to Ready
without an error, rethrows the error's code and message as an IPC error
when the state returns to Ready with an error, and returns false when the
whole budget is exhausted. -/
theorem mount_rpc_poll_behavior (f : Nat → SlotState) (i : Nat) (e : Error)
    (hlt : i < mountWaitPolls)
    (hpre : ∀ j, j < i → mountPollStep (f j) = none) :
    (f i = .Active → handleMountWait f = .ok true) ∧
    (f i = .Ready none → handleMountWait f = .ok false) ∧
    (f i = .Ready (some e) → handleMountWait f = .error e) ∧
    ((∀ j, j < mountWaitPolls → mountPollStep (f j) = none) →
      handleMountWait f = .ok false) := by
  have hskip : handleMountWait f = mountPollLoop f (mountWaitPolls - i) i := by
    have hx := mountPollLoop_skip f i (mountWaitPolls - i) 0
      (by intro j hj; simpa using hpre j hj)
    have e1 : mountWaitPolls - i + i = mountWaitPolls := by omega
    rw [e1] at hx
    simpa [handleMountWait] using hx
  have hstep : ∀ r, mountPollStep (f i) = some r → handleMountWait f = r := by
    intro r hr
    rw [hskip]
    have e2 : mountWaitPolls - i = (mountWaitPolls - i - 1) + 1 := by omega
    rw [e2]
    simp [mountPollLoop, hr]
  refine ⟨?_, ?_, ?_, ?_⟩
  · intro hA
    exact hstep _ (by rw [hA]; rfl)
  · intro hR
    exact hstep _ (by rw [hR]; rfl)
  · intro hR
    exact hstep _ (by rw [hR]; rfl)
  · intro hall
    have hx := mountPollLoop_skip f mountWaitPolls 0 0
      (by intro j hj; simpa using hall j hj)
    simp only [Nat.zero_add] at hx
    have hz : mountPollLoop f 0 mountWaitPolls = .ok false := rfl
    rw [hz] at hx
    unfold handleMountWait
    exact hx

/-- Witness for the C3 theorem: with Active observed at the very first
poll the method returns true. -/
theorem mount_rpc_poll_behavior_witness :
    handleMountWait (fun _ => SlotState.Active) = .ok true :=
  (mount_rpc_poll_behavior (fun _ => .Active) 0 ⟨.io_error, ""⟩
      (by decide) (by intro j hj; exact absurd hj (Nat.not_lt_zero j))).1 rfl

end VirtualMedia

namespace VirtualMedia

theorem mountSmbShare_target_or (m : Machine) (t : Target) (env : Env) :
    (mountSmbShare m t env).1.target = m.target ∨
    (mountSmbShare m t env).1.state = .WaitingForGadget := by
  unfold mountSmbShare
  split_ifs <;> simp

theorem mountHttpsShare_target_or (m : Machine) (env : Env) :
    (mountHttpsShare m env).1.target = m.target ∨
    (mountHttpsShare m env).1.state = .WaitingForGadget := by
  unfold mountHttpsShare
  split_ifs <;> simp

theorem activateProxyMode_target (m : Machine) (env : Env) :
    (activateProxyMode m env).1.target = m.target := by
  unfold activateProxyMode
  split_ifs <;> simp

theorem activateLegacyMode_target_or (m : Machine) (env : Env) :
    (activateLegacyMode m env).1.target = m.target ∨
    (activateLegacyMode m env).1.state = .WaitingForGadget := by
  unfold activateLegacyMode
  cases h : m.target with
  | none =>
    simp [h]
  | some t =>
    by_cases hc : isCifsUrl t.imgUrl
    · simpa [hc, h] using mountSmbShare_target_or m t env
    · by_cases hh : isHttpsUrl t.imgUrl
      · simpa [hc, hh, h] using mountHttpsShare_target_or m env
      · simp [hc, hh, h]

theorem applyActivationStarted_target_or (m : Machine) (env : Env) :
    (applyActivationStarted m env).1.target = m.target ∨
    (applyActivationStarted m env).1.state = .WaitingForGadget := by
  unfold applyActivationStarted
  cases hs : m.state <;> simp [hs]
  cases hm : m.mode
  · simp [activateProxyMode_target]
  · exact activateLegacyMode_target_or m env

end VirtualMedia

namespace VirtualMedia

theorem applyRegister_target (m : Machine) : (applyRegister m).1.target = m.target := by
  unfold applyRegister
  cases hs : m.state <;> simp [hs]

theorem applySubprocessStopped_target (m : Machine) (env : Env) :
    (applySubprocessStopped m env).1.target = m.target := by
  unfold applySubprocessStopped
  cases hs : m.state <;> (try split_ifs) <;> simp [hs]

theorem applyUdevStateChange_target (d : Bool) (m : Machine) (env : Env) :
    (applyUdevStateChange d m env).1.target = m.target := by
  unfold applyUdevStateChange
  cases hs : m.state <;> (try split_ifs) <;> simp [hs]

theorem applyMount_target (m : Machine) (m0 : Machine) (eff0 : List Effect)
    (h : applyMount m = .ok (m0, eff0)) : m0.target = m.target := by
  unfold applyMount at h
  cases hs : m.state <;> rw [hs] at h <;>
    first
      | exact Except.noConfusion h
      | (injection h with h2; injection h2 with ha hb; rw [← ha])

theorem applyUnmount_target (m : Machine) (env : Env) (m0 : Machine) (eff0 : List Effect)
    (h : applyUnmount m env = .ok (m0, eff0)) : m0.target = m.target := by
  unfold applyUnmount at h
  cases hs : m.state <;> rw [hs] at h <;> (try split_ifs at h) <;>
    first
      | exact Except.noConfusion h
      | (injection h with h2; injection h2 with ha hb; rw [← ha])

theorem applyRaw_ok_target (e : Event) (m : Machine) (env : Env)
    (m0 : Machine) (eff0 : List Effect)
    (h : applyRaw e m env = .ok (m0, eff0)) :
    m0.target = m.target ∨ m0.state = .WaitingForGadget := by
  cases e with
  | register =>
    injection h with h2
    exact Or.inl ((congrArg (fun p => Machine.target p.1) h2).symm.trans (applyRegister_target m))
  | mount =>
    exact Or.inl (applyMount_target m m0 eff0 h)
  | unmount =>
    exact Or.inl (applyUnmount_target m env m0 eff0 h)
  | subprocessStopped =>
    injection h with h2
    exact Or.inl ((congrArg (fun p => Machine.target p.1) h2).symm.trans
      (applySubprocessStopped_target m env))
  | activationStarted =>
    injection h with h2
    have hx := applyActivationStarted_target_or m env
    rw [h2] at hx
    simpa using hx
  | udevStateChange d =>
    injection h with h2
    exact Or.inl ((congrArg (fun p => Machine.target p.1) h2).symm.trans
      (applyUdevStateChange_target d m env))

end VirtualMedia

namespace VirtualMedia

theorem emitEvent_ready_shape (e : Event) (m : Machine) (env : Env)
    (m1 : Machine) (eff : List Effect) (err : Option Error)
    (h : emitEvent e m env = .ok (m1, eff)) (hs : m1.state = .Ready err) :
    m1.target = none ∧
    (∀ t d, m.target = some t → t.mountDir = some d → Effect.smbUnmount d ∈ eff) := by
  unfold emitEvent at h
  cases ha : applyRaw e m env with
  | error msg =>
    rw [ha] at h
    exact Except.noConfusion h
  | ok p =>
    obtain ⟨ma, effa⟩ := p
    rw [ha] at h
    have hta := applyRaw_ok_target e m env ma effa ha
    dsimp only at h
    split at h
    case _ e1 hsa =>
      -- resulting state was Ready before onEnter
      injection h with h2
      injection h2 with hm he
      have htp : ma.target = m.target := by
        rcases hta with htp | hw
        · exact htp
        · rw [hsa] at hw
          exact absurd hw (by simp)
      constructor
      · rw [← hm]
        exact readyOnEnter_fst_target ma
      · intro t d ht hd
        have hsnd := readyOnEnter_snd_of_mountDir ma t d (htp.trans ht) hd
        rw [← he, hsnd]
        exact List.mem_append_right _ (List.mem_singleton_self _)
    case _ hsa =>
      -- resulting state was Activating: onEnter re-runs activation
      have htp : ma.target = m.target := by
        rcases hta with htp | hw
        · exact htp
        · rw [hsa] at hw
          exact absurd hw (by simp)
      have hACT := applyActivationStarted_target_or {ma with exitCode := -1} env
      split at h
      case _ e2 hsb =>
        injection h with h2
        injection h2 with hm he
        have htq : (applyActivationStarted {ma with exitCode := -1} env).1.target = m.target := by
          rcases hACT with htq | hw
          · rw [htq]
            exact htp
          · rw [hsb] at hw
            exact absurd hw (by simp)
        constructor
        · rw [← hm]
          exact readyOnEnter_fst_target _
        · intro t d ht hd
          have hsnd := readyOnEnter_snd_of_mountDir _ t d (htq.trans ht) hd
          rw [← he, hsnd]
          exact List.mem_append_right _ (List.mem_singleton_self _)
      all_goals
        injection h with h2
        injection h2 with hm he
        rw [← hm] at hs
        simp_all
    all_goals
      injection h with h2
      injection h2 with hm he
      rw [← hm] at hs
      rw [hs] at *
      simp_all

end VirtualMedia

namespace VirtualMedia

/-- C1 amended: every successfully applied event whose resulting state is
Ready destroys the target (ReadyState::onEnter), so event application
maintains the target-iff-active-lifecycle invariant on its Ready side;
the invariant is nevertheless violated by the legacy Mount IPC method,
which stores the target before emitting any event and leaves it set in
Ready on the malformed-pipe rejection path (see the counterexample). -/
theorem events_entering_ready_clear_target (e : Event) (m : Machine) (env : Env)
    (m1 : Machine) (eff : List Effect) (err : Option Error)
    (h : emitEvent e m env = .ok (m1, eff)) (hs : m1.state = .Ready err) :
    m1.target = none :=
  (emitEvent_ready_shape e m env m1 eff err h hs).1

/-- Witness for the amended C1 theorem: an Unmount applied in Activating
enters Ready and the target is cleared. -/
theorem events_entering_ready_clear_target_witness :
    (⟨.legacy, "Slot_0", none, .Ready none, -1⟩ : Machine).target = none :=
  events_entering_ready_clear_target .unmount activatingRwSlot envAllOk
    ⟨.legacy, "Slot_0", none, .Ready none, -1⟩ [] none rfl rfl

/-- C4 amended: whenever an applied event returns the slot to Ready while
the stored target carries a recorded scratch directory, that directory is
unmounted by ReadyState::onEnter; it is however not removed there (removal
happens only on the CIFS-mount-failure path, before the directory is
recorded in the target), so an unmounted scratch directory can persist
while the slot is in Ready (see the counterexample). -/
theorem scratch_dir_unmounted_on_ready (e : Event) (m : Machine) (env : Env)
    (m1 : Machine) (eff : List Effect) (err : Option Error) (t : Target) (d : String)
    (h : emitEvent e m env = .ok (m1, eff)) (hs : m1.state = .Ready err)
    (ht : m.target = some t) (hd : t.mountDir = some d) :
    Effect.smbUnmount d ∈ eff :=
  (emitEvent_ready_shape e m env m1 eff err h hs).2 t d ht hd

end VirtualMedia

namespace VirtualMedia

/-- An active legacy CIFS slot whose target records the scratch mount
directory, as produced by a successful mountSmbShare. -/
def activeCifsSlot : Machine :=
  ⟨.legacy, "Slot_0",
   some ⟨"smb://host/share/f.iso", false, some (scratchDir "Slot_0"), none⟩,
   .Active, -1⟩

/-- Witness for the amended C4 theorem: a subprocess stop in Active returns
the slot to Ready and the recorded scratch directory is unmounted. -/
theorem scratch_dir_unmounted_on_ready_witness :
    Effect.smbUnmount (scratchDir "Slot_0") ∈
      [Effect.configureGadget false, Effect.smbUnmount (scratchDir "Slot_0")] :=
  scratch_dir_unmounted_on_ready .subprocessStopped activeCifsSlot envAllOk
    ⟨.legacy, "Slot_0", none, .Ready none, -1⟩
    [Effect.configureGadget false, Effect.smbUnmount (scratchDir "Slot_0")] none
    ⟨"smb://host/share/f.iso", false, some (scratchDir "Slot_0"), none⟩
    (scratchDir "Slot_0") rfl rfl rfl rfl

end VirtualMedia

namespace VirtualMedia

theorem readyOnEnter_snd_of_no_mountDir (m : Machine) (t : Target)
    (ht : m.target = some t) (hd : t.mountDir = none) : (readyOnEnter m).2 = [] := by
  unfold readyOnEnter
  simp [ht, hd]

/-- C6 amended: when mounting the remote CIFS share fails during legacy
activation, the slot transitions to Ready carrying invalid_argument with
message "Failed to mount CIFS share" (the source uses invalid_argument
here, not io_error), and the scratch directory is removed before the
transition, leaving no directory behind. -/
theorem cifs_mount_failure_invalid_argument (m : Machine) (env : Env) (t : Target)
    (er : Option Error) (m1 : Machine) (eff : List Effect)
    (hmode : m.mode = .legacy) (hst : m.state = .Ready er) (ht : m.target = some t)
    (hcifs : isCifsUrl t.imgUrl = true)
    (hdir : env.createMountDirOk = true) (hmount : env.smbMountOk = false)
    (h : emitEvent .mount m env = .ok (m1, eff)) :
    m1.state = .Ready (some ⟨.invalid_argument, "Failed to mount CIFS share"⟩) ∧
    Effect.removeAll (scratchDir m.name) ∈ eff ∧
    (runEffects ⟨false, false⟩ eff).dirExists = false := by
  have hM : applyRaw .mount m env =
      .ok (⟨m.mode, m.name, m.target, .Activating, m.exitCode⟩, []) := by
    simp only [applyRaw, applyMount]
    rw [hst]
  have hAct : applyActivationStarted ⟨m.mode, m.name, m.target, .Activating, -1⟩ env =
      (⟨m.mode, m.name, m.target,
        .Ready (some ⟨.invalid_argument, "Failed to mount CIFS share"⟩), -1⟩,
       [Effect.createMountDir (scratchDir m.name), Effect.removeAll (scratchDir m.name)]) := by
    unfold applyActivationStarted activateLegacyMode mountSmbShare
    simp [hmode, ht, hcifs, hdir, hmount]
  unfold emitEvent at h
  rw [hM] at h
  dsimp only at h
  rw [hAct] at h
  dsimp only at h
  injection h with h2
  injection h2 with hm he
  have hfst := readyOnEnter_fst_state
    ⟨m.mode, m.name, m.target,
     SlotState.Ready (some ⟨.invalid_argument, "Failed to mount CIFS share"⟩), -1⟩
  refine ⟨?_, ?_, ?_⟩
  · rw [← hm, hfst]
  · rw [← he]
    simp
  · rw [← he]
    cases hmd : t.mountDir with
    | none =>
      rw [readyOnEnter_snd_of_no_mountDir
        ⟨m.mode, m.name, m.target,
         SlotState.Ready (some ⟨.invalid_argument, "Failed to mount CIFS share"⟩), -1⟩
        t ht hmd]
      simp [runEffects, applyEffectFs]
    | some d =>
      rw [readyOnEnter_snd_of_mountDir
        ⟨m.mode, m.name, m.target,
         SlotState.Ready (some ⟨.invalid_argument, "Failed to mount CIFS share"⟩), -1⟩
        t d ht hmd]
      simp [runEffects, applyEffectFs]

/-- Witness for the amended C6 theorem at a concrete Ready legacy slot
whose CIFS mount fails. -/
theorem cifs_mount_failure_invalid_argument_witness :
    (⟨.legacy, "Slot_0", none,
      .Ready (some ⟨.invalid_argument, "Failed to mount CIFS share"⟩), -1⟩ : Machine).state =
      .Ready (some ⟨.invalid_argument, "Failed to mount CIFS share"⟩) ∧
    Effect.removeAll (scratchDir "Slot_0") ∈
      [Effect.createMountDir (scratchDir "Slot_0"), Effect.removeAll (scratchDir "Slot_0")] ∧
    (runEffects ⟨false, false⟩
      [Effect.createMountDir (scratchDir "Slot_0"),
       Effect.removeAll (scratchDir "Slot_0")]).dirExists = false :=
  cifs_mount_failure_invalid_argument readyWithCifsTarget envCifsMountFail
    ⟨"smb://host/share/f.iso", false, none, none⟩ none
    ⟨.legacy, "Slot_0", none,
     .Ready (some ⟨.invalid_argument, "Failed to mount CIFS share"⟩), -1⟩
    [Effect.createMountDir (scratchDir "Slot_0"), Effect.removeAll (scratchDir "Slot_0")]
    rfl rfl rfl rfl rfl rfl rfl

end VirtualMedia

namespace VirtualMedia

/-- C8 amended: a UdevStateChange applied in Initial, Active or
WaitingForProcessEnd leaves the state unchanged, in Ready it is ignored
(state and error preserved), and in WaitingForGadget the inserted
direction is the legal transition while the removed direction does not
leave the state unchanged: it transitions to Ready carrying
operation_not_supported.  (Activating is never observable between events:
its onEnter completes activation synchronously.) -/
theorem udev_state_change_amended (m : Machine) (env : Env) (d : Bool)
    (m1 : Machine) (eff : List Effect)
    (h : emitEvent (.udevStateChange d) m env = .ok (m1, eff)) :
    (m.state = .Initial → m1.state = .Initial) ∧
    (m.state = .Active → m1.state = .Active) ∧
    (m.state = .WaitingForProcessEnd → m1.state = .WaitingForProcessEnd) ∧
    (∀ er, m.state = .Ready er → m1.state = .Ready er) ∧
    (m.state = .WaitingForGadget → d = false →
      m1.state = .Ready (some ⟨.operation_not_supported, udevUnexpectedMessage⟩)) := by
  rcases m with ⟨mo, na, ta, st, ex⟩
  cases st with
  | Initial =>
    simp only [emitEvent, applyRaw, applyUdevStateChange] at h
    injection h with h2
    injection h2 with hm he
    refine ⟨fun _ => ?_, by simp, by simp, by simp, by simp⟩
    rw [← hm]
  | Ready er0 =>
    simp only [emitEvent, applyRaw, applyUdevStateChange] at h
    injection h with h2
    injection h2 with hm he
    refine ⟨by simp, by simp, by simp, ?_, by simp⟩
    intro er her
    simp only [Machine.state] at her
    injection her with her2
    subst her2
    rw [← hm, readyOnEnter_fst_state]
  | Activating =>
    exact ⟨by simp, by simp, by simp, by simp, by simp⟩
  | WaitingForGadget =>
    cases d with
    | true =>
      exact ⟨by simp, by simp, by simp, by simp, by simp⟩
    | false =>
      simp only [emitEvent, applyRaw, applyUdevStateChange, reduceIte] at h
      injection h with h2
      injection h2 with hm he
      refine ⟨by simp, by simp, by simp, by simp, fun _ _ => ?_⟩
      rw [← hm, readyOnEnter_fst_state]
      simp
  | Active =>
    simp only [emitEvent, applyRaw, applyUdevStateChange] at h
    injection h with h2
    injection h2 with hm he
    refine ⟨by simp, fun _ => ?_, by simp, by simp, by simp⟩
    rw [← hm]
  | WaitingForProcessEnd =>
    simp only [emitEvent, applyRaw, applyUdevStateChange] at h
    injection h with h2
    injection h2 with hm he
    refine ⟨by simp, by simp, fun _ => ?_, by simp, by simp⟩
    rw [← hm]

/-- Witness for the amended C8 theorem: the removed direction applied in
WaitingForGadget yields Ready with operation_not_supported. -/
theorem udev_state_change_amended_witness :
    (⟨.proxy, "Slot_0", none,
      .Ready (some ⟨.operation_not_supported, udevUnexpectedMessage⟩), -1⟩ : Machine).state =
      .Ready (some ⟨.operation_not_supported, udevUnexpectedMessage⟩) :=
  (udev_state_change_amended waitingGadgetSlot envAllOk false
      ⟨.proxy, "Slot_0", none,
       .Ready (some ⟨.operation_not_supported, udevUnexpectedMessage⟩), -1⟩
      [] rfl).2.2.2.2 rfl rfl

end VirtualMedia

namespace VirtualMedia

theorem readyOnEnter_snd_no_redfish (m : Machine) (msg : RedfishMessage) :
    Effect.sendRedfishEvent msg ∉ (readyOnEnter m).2 := by
  unfold readyOnEnter
  cases ht : m.target with
  | none => simp
  | some t => cases hd : t.mountDir <;> simp [ht, hd]

theorem mountSmbShare_no_redfish (m : Machine) (t : Target) (env : Env)
    (msg : RedfishMessage) :
    Effect.sendRedfishEvent msg ∉ (mountSmbShare m t env).2 := by
  unfold mountSmbShare
  split_ifs <;> simp

theorem mountHttpsShare_no_redfish (m : Machine) (env : Env) (msg : RedfishMessage) :
    Effect.sendRedfishEvent msg ∉ (mountHttpsShare m env).2 := by
  unfold mountHttpsShare
  split_ifs <;> simp

theorem activateProxyMode_no_redfish (m : Machine) (env : Env) (msg : RedfishMessage) :
    Effect.sendRedfishEvent msg ∉ (activateProxyMode m env).2 := by
  unfold activateProxyMode
  split_ifs <;> simp

theorem activateLegacyMode_no_redfish (m : Machine) (env : Env) (msg : RedfishMessage) :
    Effect.sendRedfishEvent msg ∉ (activateLegacyMode m env).2 := by
  unfold activateLegacyMode
  cases ht : m.target with
  | none => simp
  | some t =>
    by_cases hc : isCifsUrl t.imgUrl
    · simpa [hc] using mountSmbShare_no_redfish m t env msg
    · by_cases hh : isHttpsUrl t.imgUrl
      · simpa [hc, hh] using mountHttpsShare_no_redfish m env msg
      · simp [hc, hh]

theorem applyActivationStarted_no_redfish (m : Machine) (env : Env)
    (msg : RedfishMessage) :
    Effect.sendRedfishEvent msg ∉ (applyActivationStarted m env).2 := by
  unfold applyActivationStarted
  cases hs : m.state <;> simp [hs]
  cases hm : m.mode
  · simpa using activateProxyMode_no_redfish m env msg
  · simpa using activateLegacyMode_no_redfish m env msg

theorem mountSmbShare_state_not (m : Machine) (t : Target) (env : Env) :
    (mountSmbShare m t env).1.state ≠ .Active ∧
    (mountSmbShare m t env).1.state ≠ .WaitingForProcessEnd := by
  unfold mountSmbShare
  split_ifs <;> simp

theorem mountHttpsShare_state_not (m : Machine) (env : Env) :
    (mountHttpsShare m env).1.state ≠ .Active ∧
    (mountHttpsShare m env).1.state ≠ .WaitingForProcessEnd := by
  unfold mountHttpsShare
  split_ifs <;> simp

theorem activateProxyMode_state_not (m : Machine) (env : Env) :
    (activateProxyMode m env).1.state ≠ .Active ∧
    (activateProxyMode m env).1.state ≠ .WaitingForProcessEnd := by
  unfold activateProxyMode
  split_ifs <;> simp

theorem applyActivationStarted_not_active (m : Machine) (env : Env)
    (hs : m.state = .Activating) :
    (applyActivationStarted m env).1.state ≠ .Active ∧
    (applyActivationStarted m env).1.state ≠ .WaitingForProcessEnd := by
  unfold applyActivationStarted
  rw [hs]
  cases hm : m.mode
  · simpa using activateProxyMode_state_not m env
  · unfold activateLegacyMode
    cases ht : m.target with
    | none => simp [hs]
    | some t =>
      by_cases hc : isCifsUrl t.imgUrl
      · simpa [hc] using mountSmbShare_state_not m t env
      · by_cases hh : isHttpsUrl t.imgUrl
        · simpa [hc, hh] using mountHttpsShare_state_not m env
        · simp [hc, hh]

theorem applyActivationStarted_of_not_activating (m : Machine) (env : Env)
    (hs : m.state ≠ .Activating) :
    applyActivationStarted m env = (m, [.logCritical]) := by
  unfold applyActivationStarted
  cases hx : m.state <;> simp_all

end VirtualMedia

namespace VirtualMedia

theorem applyRaw_redfish (e : Event) (m : Machine) (env : Env)
    (m0 : Machine) (eff0 : List Effect)
    (h : applyRaw e m env = .ok (m0, eff0)) :
    (Effect.sendRedfishEvent .resourceCreated ∈ eff0 ↔
      (e = .udevStateChange true ∧ m.state = .WaitingForGadget ∧ m0.state = .Active)) ∧
    (Effect.sendRedfishEvent .resourceDeleted ∈ eff0 ↔
      (e = .unmount ∧ m.state = .Active ∧ m0.state = .WaitingForProcessEnd)) ∧
    (m0.state = .Active → m.state = .Active ∨
      (e = .udevStateChange true ∧ m.state = .WaitingForGadget)) := by
  cases e with
  | register =>
    injection h with h2
    unfold applyRegister at h2
    cases hs : m.state <;> rw [hs] at h2 <;>
      (injection h2 with hma hef; subst hma; subst hef; simp_all)
  | mount =>
    unfold applyRaw applyMount at h
    cases hs : m.state <;> rw [hs] at h <;>
      first
        | exact Except.noConfusion h
        | (injection h with h2; injection h2 with hma hef; subst hma; subst hef; simp_all)
  | unmount =>
    unfold applyRaw applyUnmount at h
    cases hs : m.state <;> rw [hs] at h <;> (try split_ifs at h) <;>
      first
        | exact Except.noConfusion h
        | (injection h with h2; injection h2 with hma hef; subst hma; subst hef; simp_all)
  | subprocessStopped =>
    injection h with h2
    unfold applySubprocessStopped at h2
    cases hs : m.state <;> rw [hs] at h2 <;> (try split_ifs at h2) <;>
      (injection h2 with hma hef; subst hma; subst hef; simp_all)
  | activationStarted =>
    injection h with h2
    by_cases hs : m.state = .Activating
    · have hno1 := applyActivationStarted_no_redfish m env .resourceCreated
      have hno2 := applyActivationStarted_no_redfish m env .resourceDeleted
      have hna := applyActivationStarted_not_active m env hs
      rw [h2] at hno1 hno2 hna
      refine ⟨?_, ?_, ?_⟩
      · simp_all
      · simp_all
      · intro hA
        exact absurd hA hna.1
    · rw [applyActivationStarted_of_not_activating m env hs] at h2
      injection h2 with hma hef
      subst hma
      subst hef
      simp_all
  | udevStateChange d =>
    injection h with h2
    unfold applyUdevStateChange at h2
    cases hs : m.state <;> rw [hs] at h2 <;> cases d <;> (try split_ifs at h2) <;>
      (injection h2 with hma hef; subst hma; subst hef; simp_all)

end VirtualMedia

namespace VirtualMedia

/-- C9: Redfish events are emitted exactly where the spec says: a
RESOURCE_CREATED exactly on a transition into Active (the inserted udev
event in WaitingForGadget with successful gadget configuration), a
RESOURCE_DELETED exactly on an Unmount applied in Active that reaches
WaitingForProcessEnd (successful gadget removal), and no Redfish event on
any transition ending in Ready with an error. -/
theorem redfish_events_exactly_on_transitions (e : Event) (m : Machine) (env : Env)
    (m1 : Machine) (eff : List Effect)
    (h : emitEvent e m env = .ok (m1, eff)) :
    ((Effect.sendRedfishEvent .resourceCreated ∈ eff) ↔
      (m.state ≠ .Active ∧ m1.state = .Active)) ∧
    ((Effect.sendRedfishEvent .resourceDeleted ∈ eff) ↔
      (e = .unmount ∧ m.state = .Active ∧ m1.state = .WaitingForProcessEnd)) ∧
    (∀ er, m1.state = .Ready (some er) →
      Effect.sendRedfishEvent .resourceCreated ∉ eff ∧
      Effect.sendRedfishEvent .resourceDeleted ∉ eff) := by
  unfold emitEvent at h
  cases ha : applyRaw e m env with
  | error msg =>
    rw [ha] at h
    exact Except.noConfusion h
  | ok p =>
    obtain ⟨ma, effa⟩ := p
    rw [ha] at h
    obtain ⟨hcre, hdel, hact⟩ := applyRaw_redfish e m env ma effa ha
    dsimp only at h
    split at h
    case _ e1 hsa =>
      injection h with h2
      injection h2 with hm he
      have hm1s : m1.state = .Ready e1 := by
        rw [← hm, readyOnEnter_fst_state, hsa]
      have hcre0 : Effect.sendRedfishEvent .resourceCreated ∉ effa := by
        intro hx
        have hx2 := (hcre.mp hx).2.2
        rw [hsa] at hx2
        exact absurd hx2 (by simp)
      have hdel0 : Effect.sendRedfishEvent .resourceDeleted ∉ effa := by
        intro hx
        have hx2 := (hdel.mp hx).2.2
        rw [hsa] at hx2
        exact absurd hx2 (by simp)
      have hnocre : Effect.sendRedfishEvent .resourceCreated ∉ eff := by
        rw [← he]
        intro hx
        rcases List.mem_append.mp hx with hx | hx
        · exact hcre0 hx
        · exact readyOnEnter_snd_no_redfish ma .resourceCreated hx
      have hnodel : Effect.sendRedfishEvent .resourceDeleted ∉ eff := by
        rw [← he]
        intro hx
        rcases List.mem_append.mp hx with hx | hx
        · exact hdel0 hx
        · exact readyOnEnter_snd_no_redfish ma .resourceDeleted hx
      refine ⟨⟨fun hx => absurd hx hnocre, ?_⟩,
              ⟨fun hx => absurd hx hnodel, ?_⟩,
              fun er her => ⟨hnocre, hnodel⟩⟩
      · rintro ⟨-, hA⟩
        rw [hm1s] at hA
        exact absurd hA (by simp)
      · rintro ⟨-, -, hW⟩
        rw [hm1s] at hW
        exact absurd hW (by simp)
    case _ hsa =>
      have hM : ({ma with exitCode := -1} : Machine).state = .Activating := hsa
      have hcre0 : Effect.sendRedfishEvent .resourceCreated ∉ effa := by
        intro hx
        have hx2 := (hcre.mp hx).2.2
        rw [hsa] at hx2
        exact absurd hx2 (by simp)
      have hdel0 : Effect.sendRedfishEvent .resourceDeleted ∉ effa := by
        intro hx
        have hx2 := (hdel.mp hx).2.2
        rw [hsa] at hx2
        exact absurd hx2 (by simp)
      have hAno1 := applyActivationStarted_no_redfish {ma with exitCode := -1} env .resourceCreated
      have hAno2 := applyActivationStarted_no_redfish {ma with exitCode := -1} env .resourceDeleted
      have hAn := applyActivationStarted_not_active {ma with exitCode := -1} env hM
      split at h
      case _ e2 hsb =>
        injection h with h2
        injection h2 with hm he
        have hm1s : m1.state = .Ready e2 := by
          rw [← hm, readyOnEnter_fst_state, hsb]
        have hnocre : Effect.sendRedfishEvent .resourceCreated ∉ eff := by
          rw [← he]
          intro hx
          rcases List.mem_append.mp hx with hx | hx
          · rcases List.mem_append.mp hx with hx | hx
            · exact hcre0 hx
            · exact hAno1 hx
          · exact readyOnEnter_snd_no_redfish _ .resourceCreated hx
        have hnodel : Effect.sendRedfishEvent .resourceDeleted ∉ eff := by
          rw [← he]
          intro hx
          rcases List.mem_append.mp hx with hx | hx
          · rcases List.mem_append.mp hx with hx | hx
            · exact hdel0 hx
            · exact hAno2 hx
          · exact readyOnEnter_snd_no_redfish _ .resourceDeleted hx
        refine ⟨⟨fun hx => absurd hx hnocre, ?_⟩,
                ⟨fun hx => absurd hx hnodel, ?_⟩,
                fun er her => ⟨hnocre, hnodel⟩⟩
        · rintro ⟨-, hA⟩
          rw [hm1s] at hA
          exact absurd hA (by simp)
        · rintro ⟨-, -, hW⟩
          rw [hm1s] at hW
          exact absurd hW (by simp)
      all_goals
        injection h with h2
        injection h2 with hm he
        refine ⟨⟨fun hx => ?_, ?_⟩, ⟨fun hx => ?_, ?_⟩, fun er her => ?_⟩
        · rw [← he] at hx
          rcases List.mem_append.mp hx with hx | hx
          · exact absurd hx hcre0
          · exact absurd hx hAno1
        · rintro ⟨-, hA⟩
          rw [← hm] at hA
          exact absurd hA hAn.1
        · rw [← he] at hx
          rcases List.mem_append.mp hx with hx | hx
          · exact absurd hx hdel0
          · exact absurd hx hAno2
        · rintro ⟨-, -, hW⟩
          rw [← hm] at hW
          exact absurd hW hAn.2
        · exfalso
          rw [← hm] at her
          simp_all
    all_goals
      injection h with h2
      injection h2 with hm he
      subst hm
      subst he
      refine ⟨⟨?_, ?_⟩, ⟨fun hx => hdel.mp hx, fun hx => hdel.mpr hx⟩, ?_⟩
      · intro hx
        obtain ⟨hex, hwf, hA⟩ := hcre.mp hx
        refine ⟨?_, hA⟩
        rw [hwf]
        simp
      · rintro ⟨hne, hA⟩
        rcases hact hA with hMA | ⟨hex, hwf⟩
        · exact absurd hMA hne
        · exact hcre.mpr ⟨hex, hwf, hA⟩
      · intro er her
        exfalso
        simp_all

end VirtualMedia

namespace VirtualMedia

/-- Witness for the C9 theorem: the successful inserted udev event in
WaitingForGadget emits RESOURCE_CREATED. -/
theorem redfish_events_exactly_on_transitions_witness :
    Effect.sendRedfishEvent .resourceCreated ∈
      [Effect.configureGadget true, Effect.sendRedfishEvent .resourceCreated] :=
  (redfish_events_exactly_on_transitions (.udevStateChange true) waitingGadgetSlot
      envAllOk ⟨.proxy, "Slot_0", none, .Active, -1⟩
      [Effect.configureGadget true, Effect.sendRedfishEvent .resourceCreated]
      rfl).1.mpr ⟨by decide, rfl⟩

end VirtualMedia
